import Mathlib

set_option maxRecDepth 8000

namespace Spec

/-- JSON value model: shallow embedding of the JavaScript JSON values the
edge handler in pages/api/chat.ts manipulates.  Numbers are modelled as
integers; the handler only probes strings, arrays and objects, and the
only numeric fact it depends on is that 0 is falsy. -/
inductive Json where
  | null : Json
  | bool (b : Bool) : Json
  | num (n : Int) : Json
  | str (s : String) : Json
  | arr (elems : List Json) : Json
  | obj (fields : List (String × Json)) : Json
deriving Repr

/-- ASCII whitespace recognised by the JSON parser and by trimming. -/
def isWsChar (c : Char) : Bool :=
  c = ' ' || c = '\t' || c = '\n' || c = '\r'

/-- Skip leading whitespace. -/
def skipWs (cs : List Char) : List Char := cs.dropWhile isWsChar

/-- Trim whitespace from both ends of a character list (model of the
JavaScript String.prototype.trim for the ASCII inputs at hand). -/
def trimL (cs : List Char) : List Char :=
  ((cs.dropWhile isWsChar).reverse.dropWhile isWsChar).reverse

/-- Resolution of a JSON string escape character. -/
def escapeOf (e : Char) : Option Char :=
  if e = '"' then some '"'
  else if e = '\\' then some '\\'
  else if e = '/' then some '/'
  else if e = 'n' then some '\n'
  else if e = 't' then some '\t'
  else if e = 'r' then some '\r'
  else if e = 'b' then some (Char.ofNat 8)
  else if e = 'f' then some (Char.ofNat 12)
  else none

/-- Parse the body of a JSON string literal (after the opening quote),
returning the decoded characters and the rest of the input.  Unicode
escapes (backslash-u) are not modelled; none of the inputs in this
development use them. -/
def parseStrChars : List Char → Option (List Char × List Char)
  | [] => none
  | '"' :: rest => some ([], rest)
  | '\\' :: e :: rest =>
    match escapeOf e with
    | none => none
    | some c =>
      match parseStrChars rest with
      | none => none
      | some (s, r) => some (c :: s, r)
  | c :: rest =>
    match parseStrChars rest with
    | none => none
    | some (s, r) => some (c :: s, r)

/-- Accumulate decimal digits. -/
def digitsToNat (acc : Nat) : List Char → Nat × List Char
  | c :: rest =>
    if c.isDigit then digitsToNat (acc * 10 + (c.toNat - 48)) rest
    else (acc, c :: rest)
  | [] => (acc, [])

/-- Parse an integer JSON number (optional minus sign then digits).
Fractions and exponents are not modelled; the handler never depends on
non-integer numbers. -/
def parseNum : List Char → Option (Int × List Char)
  | '-' :: c :: rest =>
    if c.isDigit then
      let r := digitsToNat 0 (c :: rest)
      some (-(r.1 : Int), r.2)
    else none
  | c :: rest =>
    if c.isDigit then
      let r := digitsToNat 0 (c :: rest)
      some ((r.1 : Int), r.2)
    else none
  | [] => none

mutual

/-- Fuel-indexed recursive-descent JSON value parser (model of the
JavaScript JSON.parse used by the handler).  The fuel strictly bounds
nesting depth; callers pass the input length, which always suffices
because every nesting level consumes at least one character. -/
def parseVal : Nat → List Char → Option (Json × List Char)
  | 0, _ => none
  | fuel + 1, cs =>
    match skipWs cs with
    | 'n' :: 'u' :: 'l' :: 'l' :: rest => some (Json.null, rest)
    | 't' :: 'r' :: 'u' :: 'e' :: rest => some (Json.bool true, rest)
    | 'f' :: 'a' :: 'l' :: 's' :: 'e' :: rest => some (Json.bool false, rest)
    | '"' :: rest =>
      match parseStrChars rest with
      | none => none
      | some (s, r) => some (Json.str (String.mk s), r)
    | '[' :: rest =>
      (match skipWs rest with
       | ']' :: r2 => some (Json.arr [], r2)
       | _ =>
         match parseElems fuel rest with
         | none => none
         | some (xs, r2) => some (Json.arr xs, r2))
    | '{' :: rest =>
      (match skipWs rest with
       | '}' :: r2 => some (Json.obj [], r2)
       | _ =>
         match parseMembers fuel rest with
         | none => none
         | some (kvs, r2) => some (Json.obj kvs, r2))
    | other =>
      match parseNum other with
      | none => none
      | some (n, r) => some (Json.num n, r)

/-- Array elements: value, then a comma and more elements or a close. -/
def parseElems : Nat → List Char → Option (List Json × List Char)
  | 0, _ => none
  | fuel + 1, cs =>
    match parseVal fuel cs with
    | none => none
    | some (v, r) =>
      match skipWs r with
      | ',' :: r2 =>
        (match parseElems fuel r2 with
         | none => none
         | some (vs, r3) => some (v :: vs, r3))
      | ']' :: r2 => some ([v], r2)
      | _ => none

/-- Object members: quoted key, colon, value, then comma or close. -/
def parseMembers : Nat → List Char → Option (List (String × Json) × List Char)
  | 0, _ => none
  | fuel + 1, cs =>
    match skipWs cs with
    | '"' :: r0 =>
      (match parseStrChars r0 with
       | none => none
       | some (k, r1) =>
         match skipWs r1 with
         | ':' :: r2 =>
           (match parseVal fuel r2 with
            | none => none
            | some (v, r3) =>
              match skipWs r3 with
              | ',' :: r4 =>
                (match parseMembers fuel r4 with
                 | none => none
                 | some (kvs, r5) => some ((String.mk k, v) :: kvs, r5))
              | '}' :: r4 => some ([(String.mk k, v)], r4)
              | _ => none)
         | _ => none)
    | _ => none

end

/-- Model of JSON.parse on a character list: parse one value and require
only trailing whitespace after it. -/
def jsonParse (cs : List Char) : Option Json :=
  match parseVal (cs.length + 1) cs with
  | some (v, rest) => if skipWs rest = [] then some v else none
  | none => none

/-- JavaScript truthiness of a JSON value (undefined is represented as
none at the Option level by the accessors below). -/
def truthy : Json → Bool
  | Json.null => false
  | Json.bool b => b
  | Json.num n => n != 0
  | Json.str s => s != ""
  | Json.arr _ => true
  | Json.obj _ => true

/-- Truthiness lifted to possibly-undefined values. -/
def truthyO : Option Json → Bool
  | some v => truthy v
  | none => false

/-- Property lookup on an object field list; for duplicate keys the last
occurrence wins, as in JavaScript objects produced by JSON.parse. -/
def objGet (kvs : List (String × Json)) (k : String) : Option Json :=
  ((kvs.filter (fun kv => kv.1 == k)).getLast?).map Prod.snd

/-- JavaScript property access j[k]: undefined (none) on non-objects. -/
def jsGet (j : Json) (k : String) : Option Json :=
  match j with
  | Json.obj kvs => objGet kvs k
  | _ => none

/-- Optional-chaining property access on a possibly-undefined value. -/
def jsGetOpt (o : Option Json) (k : String) : Option Json :=
  match o with
  | some j => jsGet j k
  | none => none

/-- Optional-chaining index access o?.[i]: array element, or the string
property on an object, else undefined. -/
def jsIdx (o : Option Json) (i : Nat) : Option Json :=
  match o with
  | some (Json.arr xs) => xs[i]?
  | some (Json.obj kvs) => objGet kvs (toString i)
  | _ => none

/-- JavaScript logical-or on possibly-undefined JSON values: the first
operand when truthy, else the second operand unchanged. -/
def jsOr (a b : Option Json) : Option Json :=
  match a with
  | some v => if truthy v then some v else b
  | none => b

/-- The guard content and typeof content equals string from the generate
stream transformer: yields the string only when it is truthy (non-empty)
and actually a string. -/
def strContent : Option Json → Option String
  | some (Json.str s) => if s != "" then some s else none
  | _ => none

/-- Escape one character for JSON string serialization (the common
escapes used by JSON.stringify on the inputs at hand). -/
def escChar (c : Char) : String :=
  if c = '"' then "\\\""
  else if c = '\\' then "\\\\"
  else if c = '\n' then "\\n"
  else if c = '\t' then "\\t"
  else if c = '\r' then "\\r"
  else String.singleton c

/-- Serialize a string as a JSON string literal. -/
def jstrLit (s : String) : String :=
  "\"" ++ String.join (s.toList.map escChar) ++ "\""

/-- Fuel-indexed model of JSON.stringify.  Fuel bounds nesting depth;
call sites pass a bound derived from the input line length, which always
suffices for values produced by jsonParse on that line. -/
def stringifyF : Nat → Json → String
  | _, Json.null => "null"
  | _, Json.bool b => cond b "true" "false"
  | _, Json.num n => toString n
  | _, Json.str s => jstrLit s
  | 0, Json.arr _ => ""
  | 0, Json.obj _ => ""
  | f + 1, Json.arr xs =>
    "[" ++ String.intercalate "," (xs.map (fun x => stringifyF f x)) ++ "]"
  | f + 1, Json.obj kvs =>
    "\x7b" ++
      String.intercalate ","
        (kvs.map (fun kv => jstrLit kv.1 ++ ":" ++ stringifyF f kv.2)) ++
      "\x7d"

/-- Fuel-indexed model of the JavaScript String() conversion applied by
TextEncoder.encode to a non-string value (arrays join with commas and
render null elements empty, objects render as [object Object]). -/
def jsToStringF : Nat → Json → String
  | _, Json.null => "null"
  | _, Json.bool b => cond b "true" "false"
  | _, Json.num n => toString n
  | _, Json.str s => s
  | 0, Json.arr _ => ""
  | f + 1, Json.arr xs =>
    String.intercalate ","
      (xs.map (fun x =>
        match x with
        | Json.null => ""
        | y => jsToStringF f y))
  | _, Json.obj _ => "[object Object]"

/-- Drop input up to and including the first occurrence of the separator
sequence; none when the separator does not occur.  Together with
takeUntilSep this models element 1 of the JavaScript String.split. -/
def dropThroughSep (sep : List Char) : List Char → Option (List Char)
  | [] => none
  | c :: rest =>
    if sep.isPrefixOf (c :: rest) then some ((c :: rest).drop sep.length)
    else dropThroughSep sep rest

/-- Take input up to (excluding) the next occurrence of the separator. -/
def takeUntilSep (sep : List Char) : List Char → List Char
  | [] => []
  | c :: rest =>
    if sep.isPrefixOf (c :: rest) then []
    else c :: takeUntilSep sep rest

/-- Substring containment test (model of String.prototype.includes for
the non-empty needles used by the handler). -/
def containsSeq (sep l : List Char) : Bool := (dropThroughSep sep l).isSome

/-- Split a character stream into the complete newline-terminated lines
and the trailing partial segment.  This models the pair
lines = buffer.split(newline); buffer = lines.pop() of both stream
transformers. -/
def splitNl : List Char → List (List Char) × List Char
  | [] => ([], [])
  | c :: rest =>
    let r := splitNl rest
    if c = '\n' then ([] :: r.1, r.2)
    else
      match r.1 with
      | [] => ([], c :: r.2)
      | l :: ls => ((c :: l) :: ls, r.2)

/-- The per-response decode state of a stream transformer: the carryover
buffer of the trailing partial line, the raw accumulator streamContent
(used only by the generate fallback), the intermediate-step sequence
counter, whether the output controller has been closed by the DONE
sentinel, and the list of successfully enqueued output strings. -/
structure TState where
  buffer : List Char
  raw : List Char
  counter : Nat
  done : Bool
  out : List String
deriving Repr, DecidableEq

/-- Initial decode state of one streaming response. -/
def initTS : TState := { buffer := [], raw := [], counter := 0, done := false, out := [] }

/-- A line-level dispatcher: given the current sequence counter and one
complete line, it returns the strings to enqueue, the new counter, and
whether the DONE sentinel closed the output controller. -/
def LineHandler : Type := Nat → List Char → List String × Nat × Bool

/-- Dispatch one line through a handler, accumulating its emissions. -/
def procLine (h : LineHandler) (st : TState) (l : List Char) : TState :=
  let r := h st.counter l
  { st with out := st.out ++ r.1, counter := r.2.1, done := r.2.2 }

/-- Dispatch the complete lines of one chunk in order; once the DONE
sentinel has closed the controller the remaining lines are skipped,
because both transformers return from the read loop at that point. -/
def procLines (h : LineHandler) : TState → List (List Char) → TState
  | st, [] => st
  | st, l :: ls => if st.done then st else procLines h (procLine h st l) ls

/-- Consume one upstream chunk: append it to the carryover buffer and the
raw accumulator, split off the complete lines, keep the trailing partial
segment as the new buffer, and dispatch the complete lines.  After the
DONE sentinel the transformer has returned, so further chunks are not
read. -/
def feedChunk (h : LineHandler) (st : TState) (chunk : List Char) : TState :=
  if st.done then st
  else
    let sp := splitNl (st.buffer ++ chunk)
    procLines h { st with buffer := sp.2, raw := st.raw ++ chunk } sp.1

/-- Run a line handler over a whole sequence of decoded upstream chunks. -/
def runCore (h : LineHandler) (chunks : List (List Char)) : TState :=
  chunks.foldl (feedChunk h) initTS

/-- parsed?.choices?.[0]?.message?.content -/
def choicesMsgContent (j : Json) : Option Json :=
  jsGetOpt (jsGetOpt (jsIdx (jsGet j "choices") 0) "message") "content"

/-- parsed?.choices?.[0]?.delta?.content -/
def choicesDeltaContent (j : Json) : Option Json :=
  jsGetOpt (jsGetOpt (jsIdx (jsGet j "choices") 0) "delta") "content"

/-- The content extraction chain of the generate stream transformer:
parsed?.value, else parsed?.output, else parsed?.answer, else
choices[0].message.content, else choices[0].delta.content, combined with
JavaScript logical-or. -/
def genExtract (j : Json) : Option Json :=
  jsOr (jsGet j "value")
    (jsOr (jsGet j "output")
      (jsOr (jsGet j "answer")
        (jsOr (choicesMsgContent j) (choicesDeltaContent j))))

/-- payload?.k or a fixed string default: keeps the stored value when it
is truthy, else substitutes the default. -/
def jsDefault (v : Option Json) (d : String) : Json :=
  match v with
  | some x => if truthy x then x else Json.str d
  | none => Json.str d

/-- The intermediate step event object built from one
intermediate_data: line payload, with every field defaulted when absent
or falsy and the transformer-assigned sequence index. -/
def interMsg (payload : Json) (counter : Nat) : Json :=
  Json.obj
    [("id", jsDefault (jsGet payload "id") ""),
     ("status", jsDefault (jsGet payload "status") "in_progress"),
     ("error", jsDefault (jsGet payload "error") ""),
     ("type", Json.str "system_intermediate"),
     ("parent_id", jsDefault (jsGet payload "parent_id") "default"),
     ("intermediate_parent_id", jsDefault (jsGet payload "intermediate_parent_id") "default"),
     ("content", Json.obj
        [("name", jsDefault (jsGet payload "name") "Step"),
         ("payload", jsDefault (jsGet payload "payload") "No details")]),
     ("time_stamp", jsDefault (jsGet payload "time_stamp") "default"),
     ("index", Json.num (counter : Int))]

/-- The separator of the intermediate_data micro-protocol. -/
def interSep : List Char := ("intermediate_data: ").toList

/-- Handle a line of the intermediate_data micro-protocol, shared
verbatim by both stream transformers: take the text between the first
and second occurrence of the separator (JavaScript split element 1),
parse it as JSON, and on success emit the serialized intermediate step
event wrapped in intermediatestep tags and advance the counter; a parse
failure drops the line. -/
def interEmit (counter : Nat) (line : List Char) : List String × Nat :=
  match dropThroughSep interSep line with
  | none => ([], counter)
  | some rest =>
    let data := takeUntilSep interSep rest
    match jsonParse data with
    | none => ([], counter)
    | some payload =>
      (["<intermediatestep>" ++ stringifyF (data.length + 8) (interMsg payload counter) ++
          "</intermediatestep>"], counter + 1)

/-- Line dispatch of the generate stream transformer
(processGenerateStream): data-prefixed lines are checked for the DONE
sentinel, then JSON-parsed and probed through genExtract, emitting only
a truthy string; lines containing a matched intermediatestep tag pair
pass through verbatim when intermediate steps are enabled; and
intermediate_data lines always produce a serialized step event.  Parse
failures drop the line. -/
def genLine (enableIS : Bool) : LineHandler := fun counter line =>
  if ("data: ").toList.isPrefixOf line then
    let data := line.drop 5
    if trimL data = ("[DONE]").toList then ([], counter, true)
    else
      match jsonParse data with
      | none => ([], counter, false)
      | some j =>
        match strContent (genExtract j) with
        | some s => ([s], counter, false)
        | none => ([], counter, false)
  else if containsSeq ("<intermediatestep>").toList line &&
          containsSeq ("</intermediatestep>").toList line && enableIS then
    ([String.mk line], counter, false)
  else if interSep.isPrefixOf line then
    let r := interEmit counter line
    (r.1, r.2, false)
  else ([], counter, false)

/-- Line dispatch of the chat stream transformer (processChatStream):
data-prefixed lines are checked for the DONE sentinel, then JSON-parsed;
the content is choices[0].message.content or-else
choices[0].delta.content and is emitted whenever truthy (a non-string
truthy content is emitted through the String() conversion performed by
TextEncoder.encode; a null parse result makes the property access throw,
which the per-line catch turns into a drop).  intermediate_data lines
produce a step event only when intermediate steps are enabled. -/
def chatLine (enableIS : Bool) : LineHandler := fun counter line =>
  if ("data: ").toList.isPrefixOf line then
    let data := line.drop 5
    if trimL data = ("[DONE]").toList then ([], counter, true)
    else
      match jsonParse data with
      | none => ([], counter, false)
      | some Json.null => ([], counter, false)
      | some j =>
        match jsOr (choicesMsgContent j) (choicesDeltaContent j) with
        | some v =>
          if truthy v then ([jsToStringF (data.length + 8) v], counter, false)
          else ([], counter, false)
        | none => ([], counter, false)
  else if interSep.isPrefixOf line && enableIS then
    let r := interEmit counter line
    (r.1, r.2, false)
  else ([], counter, false)

/-- The draining-phase fallback of the generate stream transformer: parse
the whole raw accumulator as one JSON document, probe value, output,
answer, then choices[0].message.content, and emit the trimmed string when
the result is a truthy string. -/
def genFallback (raw : List Char) : List String :=
  match jsonParse raw with
  | none => []
  | some j =>
    match strContent
        (jsOr (jsGet j "value")
          (jsOr (jsGet j "output")
            (jsOr (jsGet j "answer") (choicesMsgContent j)))) with
    | some s => [String.mk (trimL s.toList)]
    | none => []

/-- Observable outcome of one stream transformer execution: the enqueued
output strings in order, how many times close was invoked on the output
controller, and whether the upstream reader lock was released. -/
structure RunResult where
  output : List String
  closeCalls : Nat
  released : Bool
deriving Repr, DecidableEq

/-- Whole-execution model of processGenerateStream over the decoded
upstream chunks.  The finally block always runs: when the DONE sentinel
already closed the controller, the fallback enqueue would throw on the
closed controller (so it emits nothing), and the unconditional
controller.close() throws a TypeError on the already-closed controller,
which skips reader.releaseLock(); close has then been invoked twice.  On
a normal upstream end the fallback may emit, close succeeds once, and
the reader lock is released. -/
def processGenerateStream (enableIS : Bool) (chunks : List (List Char)) : RunResult :=
  let st := runCore (genLine enableIS) chunks
  if st.done then { output := st.out, closeCalls := 2, released := false }
  else { output := st.out ++ genFallback st.raw, closeCalls := 1, released := true }

/-- Whole-execution model of processChatStream over the decoded upstream
chunks; same finally-block semantics as the generate variant but with no
draining fallback. -/
def processChatStream (enableIS : Bool) (chunks : List (List Char)) : RunResult :=
  let st := runCore (chatLine enableIS) chunks
  if st.done then { output := st.out, closeCalls := 2, released := false }
  else { output := st.out, closeCalls := 1, released := true }

/-- A chat message as received by the handler. -/
structure Message where
  role : String
  content : String
deriving Repr, DecidableEq

/-- HTTP_ENDPOINTS.CHAT from the HTTP_ENDPOINTS constant table of the
constants/endpoints module (whose content is provided within
src/push-to-ecr-amd-dev.sh): the non-streaming chat endpoint path. -/
def CHAT_ENDPOINT : String := "/chat"

/-- HTTP_ENDPOINTS.CHAT_STREAM from constants/endpoints: the streaming
chat endpoint path. -/
def CHAT_STREAM_ENDPOINT : String := "/chat/stream"

/-- HTTP_ENDPOINTS.GENERATE from constants/endpoints: the non-streaming
generate endpoint path. -/
def GENERATE_ENDPOINT : String := "/generate"

/-- HTTP_ENDPOINTS.GENERATE_STREAM from constants/endpoints: the
streaming generate endpoint path. -/
def GENERATE_STREAM_ENDPOINT : String := "/generate/stream"

/-- HTTP_ENDPOINTS.CHAT_CA_RAG from constants/endpoints: the
context-aware RAG endpoint path. -/
def CHAT_CA_RAG_ENDPOINT : String := "/call"

/-- The WebSocket path constant from constants/constants.tsx. -/
def WEBSOCKET_PATH : String := "/websocket"

/-- Object.values of the HTTP_ENDPOINTS table in its insertion order,
i.e. the HTTP part of the URL path allow-list used by isValidPath. -/
def httpEndpointPaths : List String :=
  [CHAT_STREAM_ENDPOINT, CHAT_ENDPOINT, GENERATE_STREAM_ENDPOINT,
   GENERATE_ENDPOINT, CHAT_CA_RAG_ENDPOINT]

/-- buildGeneratePayload from pages/api/chat.ts: reads the content of the
last message and throws when it is missing or falsy (the role is never
inspected); otherwise the outbound body is an input_message object. -/
def buildGeneratePayload (messages : List Message) : Except String Json :=
  match messages.getLast? with
  | none => Except.error "User message not found."
  | some m =>
    if m.content = "" then Except.error "User message not found."
    else Except.ok (Json.obj [("input_message", Json.str m.content)])

/-- buildOpenAIChatPayload from pages/api/chat.ts: forwards the whole
transcript with the streaming flag; it never fails. -/
def buildOpenAIChatPayload (messages : List Message) (isStreaming : Bool) : Json :=
  Json.obj
    [("messages", Json.arr (messages.map (fun m =>
        Json.obj [("role", Json.str m.role), ("content", Json.str m.content)]))),
     ("stream", Json.bool isStreaming)]

/-- The message guard of buildContextAwareRAGPayload: the list must be
non-empty and its last message must be a user turn. -/
def caRagGuardOk (messages : List Message) : Bool :=
  !messages.isEmpty &&
    ((messages.getLast?).map Message.role).getD "" == "user"

/-- The context-aware RAG outbound body:
state.chat.question is the content of the last message. -/
def caRagPayload (messages : List Message) : Json :=
  Json.obj [("state", Json.obj [("chat", Json.obj
    [("question", Json.str (((messages.getLast?).map Message.content).getD ""))])])]

/-- The conversation initialization key of the session initializer:
ragUuid, a dash, and the conversation id, with the empty (absent) id
replaced by the default sentinel. -/
def caRagKey (ragUuid conversationId : String) : String :=
  ragUuid ++ "-" ++ (if conversationId = "" then "default" else conversationId)

/-- Observable outcome of one buildContextAwareRAGPayload invocation:
the memo set afterwards, whether a POST /init network call was issued,
and whether the call produced a payload (rather than throwing). -/
structure CaRagResult where
  memo : List String
  initCalled : Bool
  ok : Bool
deriving Repr, DecidableEq

/-- Model of buildContextAwareRAGPayload from pages/api/chat.ts.  The
memo set of initialized conversation keys is threaded explicitly (in the
source it is a process-wide closure variable); initOk is the outcome of
the upstream POST /init response when one is issued.  The guard throws
first; a memoized key returns with no network call; otherwise one /init
call is issued and the key is recorded only when the response is
successful. -/
def buildContextAwareRAGPayload (memo : List String) (messages : List Message)
    (conversationId ragUuid : String) (initOk : Bool) : CaRagResult :=
  if !caRagGuardOk messages then { memo := memo, initCalled := false, ok := false }
  else
    let key := caRagKey ragUuid conversationId
    if memo.contains key then { memo := memo, initCalled := false, ok := true }
    else if initOk then { memo := key :: memo, initCalled := true, ok := true }
    else { memo := memo, initCalled := true, ok := false }

/-- Run a sequence of context-aware RAG calls: each list entry carries
the messages, the conversation id, and the /init response outcome used
if a network call is issued.  Returns the final memo set and the total
number of /init network calls. -/
def caRagRun (ragUuid : String) : List String → List (List Message × String × Bool) → List String × Nat
  | memo, [] => (memo, 0)
  | memo, c :: rest =>
    let r := buildContextAwareRAGPayload memo c.1 c.2.1 ragUuid c.2.2
    let rr := caRagRun ragUuid r.memo rest
    (rr.1, (cond r.initCalled 1 0) + rr.2)

/-- The reserved outbound payload fields that optionalGenerationParameters
may not override. -/
def reservedFields : List String := ["messages", "stream", "input_message"]

/-- JavaScript object spread of the extra keys over the base payload:
base keys keep their position (values overridden by a matching extra
key) and extra-only keys are appended. -/
def jsSpread (payload : Json) (extra : List (String × Json)) : Json :=
  match payload with
  | Json.obj base =>
    Json.obj
      ((base.map (fun kv => (kv.1, (objGet extra kv.1).getD kv.2))) ++
        extra.filter (fun kv => !(base.map Prod.fst).contains kv.1))
  | other => other

/-- The decision the handler reaches before any outbound network call:
an early HTTP error response, an outbound call with a concrete payload,
or the context-aware RAG path (whose payload construction involves the
session initializer modelled separately). -/
inductive Outcome where
  | respond (status : Nat) (body : String) : Outcome
  | callBackend (payload : Json) : Outcome
  | caRag : Outcome
deriving Repr

/-- The payload-construction and merge stage of the handler in
pages/api/chat.ts: endpoint family flags come from substring tests on
the endpoint path; the builder errors become 400 responses; and for
non-generate, non-CA-RAG endpoints a non-empty optionalGenerationParameters
is JSON-parsed (failure is a 400), and when it is a plain object its
keys are checked against the reserved set (the first reserved key aborts
with a 400 before anything is merged) and otherwise spread over the
payload; a parsed non-object is ignored. -/
def payloadStage (httpEndpoint : String) (messages : List Message) (ogp : String) : Outcome :=
  let isGen := containsSeq ("generate").toList httpEndpoint.toList
  let isCaRag := httpEndpoint == CHAT_CA_RAG_ENDPOINT
  let isStreaming := containsSeq ("/stream").toList httpEndpoint.toList
  if isCaRag then Outcome.caRag
  else
    match (if isGen then buildGeneratePayload messages
           else Except.ok (buildOpenAIChatPayload messages isStreaming)) with
    | Except.error msg => Outcome.respond 400 msg
    | Except.ok payload =>
      if !isGen && ogp != "" && !(trimL ogp.toList).isEmpty then
        match jsonParse ogp.toList with
        | none => Outcome.respond 400 "Invalid additional JSON body format"
        | some (Json.obj kvs) =>
          (match (kvs.map Prod.fst).find? (fun k => reservedFields.contains k) with
           | some k =>
             Outcome.respond 400
               ("optionalGenerationParameters cannot override reserved field: " ++ k)
           | none => Outcome.callBackend (jsSpread payload kvs))
        | some _ => Outcome.callBackend payload
      else Outcome.callBackend payload

/-- Parsed absolute URL model: scheme, host (including the port, as in
the JavaScript URL host property) and the dot-segment-normalized
pathname.  Userinfo, query and fragment components are not modelled;
none of the URLs this layer validates carry them. -/
structure URLRec where
  scheme : String
  host : String
  pathname : String
deriving Repr, DecidableEq

/-- Split a character list into segments at every occurrence of the
separator character (model of String.prototype.split with a one-character
separator; always returns at least one segment). -/
def splitSeg (sep : Char) : List Char → List (List Char)
  | [] => [[]]
  | c :: rest =>
    if c = sep then [] :: splitSeg sep rest
    else
      match splitSeg sep rest with
      | [] => [[c]]
      | s :: ss => (c :: s) :: ss

/-- Join segments with a separator character. -/
def joinSeg (sep : Char) : List (List Char) → List Char
  | [] => []
  | [s] => s
  | s :: ss => s ++ sep :: joinSeg sep ss

/-- WHATWG dot-segment removal on an absolute path: single-dot segments
are dropped and double-dot segments pop the previous segment. -/
def normalizePath (p : List Char) : String :=
  if p.isEmpty then "/"
  else
    let segs := (splitSeg '/' p).drop 1
    let stack := segs.foldl
      (fun acc s =>
        if s = ['.'] then acc
        else if s = ['.', '.'] then acc.dropLast
        else acc ++ [s]) ([] : List (List Char))
    String.mk ('/' :: joinSeg '/' stack)

/-- Model of the JavaScript URL constructor for the absolute http, https,
ws and wss URLs this layer handles: scheme before the scheme separator,
host up to the first slash, and the normalized pathname after it.  A
missing separator or empty scheme or host fails to parse. -/
def parseURL (url : String) : Option URLRec :=
  let cs := url.toList
  match dropThroughSep ("://").toList cs with
  | none => none
  | some rest =>
    let scheme := takeUntilSep ("://").toList cs
    let hostCs := rest.takeWhile (fun c => c != '/')
    let pathCs := rest.dropWhile (fun c => c != '/')
    if scheme.isEmpty || hostCs.isEmpty then none
    else some { scheme := String.mk scheme, host := String.mk hostCs,
                pathname := normalizePath pathCs }

/-- The environment configuration the URL validator reads: the
production flag (NODE_ENV) and the configured backend address
(NEXT_PUBLIC_NAT_BACKEND_ADDRESS). -/
structure EnvCfg where
  isProd : Bool
  backendAddress : Option String
deriving Repr, DecidableEq

/-- isValidURL from utils/security/url-validation: the string parses as
a URL. -/
def isValidURL (url : String) : Bool := (parseURL url).isSome

/-- isValidProtocol: raw-string scheme prefix test; in production only
https and wss are allowed, in development also http and ws. -/
def isValidProtocol (cfg : EnvCfg) (url : String) : Bool :=
  if cfg.isProd then
    ("https://").toList.isPrefixOf url.toList || ("wss://").toList.isPrefixOf url.toList
  else
    ("http://").toList.isPrefixOf url.toList || ("https://").toList.isPrefixOf url.toList ||
      ("ws://").toList.isPrefixOf url.toList || ("wss://").toList.isPrefixOf url.toList

/-- isValidPath: the parsed, normalized pathname must be one of the
endpoint paths or the WebSocket path. -/
def isValidPath (url : String) : Bool :=
  match parseURL url with
  | none => false
  | some u => httpEndpointPaths.contains u.pathname || u.pathname == WEBSOCKET_PATH

/-- isValidBaseAddress: the parsed host must equal the configured
backend address; an unset backend address rejects everything. -/
def isValidBaseAddress (cfg : EnvCfg) (url : String) : Bool :=
  match cfg.backendAddress with
  | none => false
  | some b =>
    match parseURL url with
    | none => false
    | some u => u.host == b

/-- Result record of validateRequestURL. -/
structure ValidationResult where
  isValid : Bool
  error : Option String
deriving Repr, DecidableEq

/-- validateRequestURL from utils/security/url-validation: base address,
protocol, path and URL format are checked in order, short-circuiting on
the first failure. -/
def validateRequestURL (cfg : EnvCfg) (url : String) : ValidationResult :=
  if !isValidBaseAddress cfg url then
    { isValid := false, error := some "Base address does not match configured backend" }
  else if !isValidProtocol cfg url then
    { isValid := false, error := some (if cfg.isProd then
        "Invalid protocol. Only https: and wss: are allowed in production"
      else "Invalid protocol") }
  else if !isValidPath url then
    { isValid := false, error := some "Path is not in the allowed list" }
  else if !isValidURL url then
    { isValid := false, error := some "Invalid URL format" }
  else { isValid := true, error := none }

/-- First-truthy probing over an explicit ordered list of extractor
functions: the formulation of the precedence chain used to state the
extraction claims (the design-note strategy-list form). -/
def probeFirst (ps : List (Json → Option Json)) (j : Json) : Option Json :=
  ps.findSome? (fun p =>
    match p j with
    | some v => if truthy v then some v else none
    | none => none)

/-- The ordered probe list of the generate stream extraction. -/
def genProbes : List (Json → Option Json) :=
  [fun j => jsGet j "value", fun j => jsGet j "output", fun j => jsGet j "answer",
   choicesMsgContent, choicesDeltaContent]

/-- The ordered probe list of the chat stream extraction. -/
def chatProbes : List (Json → Option Json) :=
  [choicesMsgContent, choicesDeltaContent]

/-- Spec-side emission for a generate data line: the first truthy probe
result is emitted exactly when it is a string. -/
def genEmitSpec (j : Json) : List String :=
  match probeFirst genProbes j with
  | some (Json.str s) => [s]
  | _ => []

/-- Spec-side emission for a chat data line whose remainder parsed to j:
the first truthy probe result is emitted (through the String()
conversion, with the same depth fuel the handler uses). -/
def chatEmitSpec (data : List Char) (j : Json) : List String :=
  match probeFirst chatProbes j with
  | some v => [jsToStringF (data.length + 8) v]
  | none => []

/-- A data-prefixed line. -/
def isDataLine (l : List Char) : Bool := ("data: ").toList.isPrefixOf l

/-- A complete DONE sentinel line: data-prefixed and the remainder after
slicing off the first five characters trims to the sentinel. -/
def isDoneLine (l : List Char) : Bool :=
  isDataLine l && trimL (l.drop 5) == ("[DONE]").toList

/-- Observational equivalence of transformer states: same emitted output
and same closed flag, and full state equality while the controller is
still open (once it is closed the buffer and raw accumulator can no
longer influence the result). -/
def obsEq (s t : TState) : Prop :=
  s.out = t.out ∧ s.done = t.done ∧ (s.done = false → s = t)

theorem splitNl_cons_nl (rest : List Char) :
    splitNl ('\n' :: rest) = ([] :: (splitNl rest).1, (splitNl rest).2) := by
  simp [splitNl]

theorem splitNl_cons_ne (c : Char) (rest : List Char) (hc : c ≠ '\n') :
    splitNl (c :: rest) =
      (match (splitNl rest).1 with
       | [] => ([], c :: (splitNl rest).2)
       | l :: ls => ((c :: l) :: ls, (splitNl rest).2)) := by
  simp [splitNl, hc]

theorem splitNl_append (x y : List Char) :
    (splitNl (x ++ y)).1 = (splitNl x).1 ++ (splitNl ((splitNl x).2 ++ y)).1 ∧
    (splitNl (x ++ y)).2 = (splitNl ((splitNl x).2 ++ y)).2 := by
  induction x with
  | nil => constructor <;> simp [splitNl]
  | cons c rest ih =>
    obtain ⟨ih1, ih2⟩ := ih
    by_cases hc : c = '\n'
    · subst hc
      rw [List.cons_append, splitNl_cons_nl, splitNl_cons_nl]
      constructor
      · simp [ih1]
      · simpa using ih2
    · cases h1 : (splitNl rest).1 with
      | nil =>
        have e : splitNl (c :: rest) = ([], c :: (splitNl rest).2) := by
          rw [splitNl_cons_ne c rest hc, h1]
        have hfst : (splitNl (rest ++ y)).1 = (splitNl ((splitNl rest).2 ++ y)).1 := by
          rw [ih1, h1, List.nil_append]
        rw [List.cons_append, e, splitNl_cons_ne c (rest ++ y) hc]
        simp only [List.nil_append, List.cons_append]
        rw [splitNl_cons_ne c ((splitNl rest).2 ++ y) hc]
        cases h2 : (splitNl ((splitNl rest).2 ++ y)).1 with
        | nil => rw [hfst, h2]; simp [ih2]
        | cons l2 ls2 => rw [hfst, h2]; simp [ih2]
      | cons l ls =>
        have e : splitNl (c :: rest) = ((c :: l) :: ls, (splitNl rest).2) := by
          rw [splitNl_cons_ne c rest hc, h1]
        have hfst : (splitNl (rest ++ y)).1 =
            l :: (ls ++ (splitNl ((splitNl rest).2 ++ y)).1) := by
          rw [ih1, h1, List.cons_append]
        rw [List.cons_append, e, splitNl_cons_ne c (rest ++ y) hc, hfst]
        constructor
        · simp
        · simpa using ih2

theorem splitNl_snd_no_newline (x : List Char) : '\n' ∉ (splitNl x).2 := by
  induction x with
  | nil => simp [splitNl]
  | cons c rest ih =>
    by_cases hc : c = '\n'
    · subst hc; rw [splitNl_cons_nl]; exact ih
    · rw [splitNl_cons_ne c rest hc]
      cases h1 : (splitNl rest).1 with
      | nil =>
        intro hmem
        rcases List.mem_cons.mp hmem with h | h
        · exact hc h.symm
        · exact ih h
      | cons l ls => exact ih

theorem splitNl_of_no_newline (x : List Char) (h : '\n' ∉ x) :
    splitNl x = ([], x) := by
  induction x with
  | nil => simp [splitNl]
  | cons c rest ih =>
    have hc : c ≠ '\n' := fun hcc => h (hcc ▸ List.mem_cons_self c rest)
    have hr : '\n' ∉ rest := fun hm => h (List.mem_cons_of_mem c hm)
    simp [splitNl, hc, ih hr]

theorem procLine_buffer (h : LineHandler) (st : TState) (l : List Char) :
    (procLine h st l).buffer = st.buffer := rfl

theorem procLine_raw (h : LineHandler) (st : TState) (l : List Char) :
    (procLine h st l).raw = st.raw := rfl

theorem procLines_cons (h : LineHandler) (st : TState) (l : List Char)
    (ls : List (List Char)) :
    procLines h st (l :: ls) =
      if st.done = true then st else procLines h (procLine h st l) ls := rfl

theorem procLines_done (h : LineHandler) (st : TState) (ls : List (List Char))
    (hd : st.done = true) : procLines h st ls = st := by
  cases ls with
  | nil => rfl
  | cons l ls => rw [procLines_cons, if_pos hd]

theorem procLines_buffer (h : LineHandler) (st : TState) (ls : List (List Char)) :
    (procLines h st ls).buffer = st.buffer := by
  induction ls generalizing st with
  | nil => rfl
  | cons l ls ih =>
    by_cases hd : st.done = true
    · rw [procLines_done h st _ hd]
    · rw [procLines_cons, if_neg hd, ih, procLine_buffer]

theorem procLines_raw (h : LineHandler) (st : TState) (ls : List (List Char)) :
    (procLines h st ls).raw = st.raw := by
  induction ls generalizing st with
  | nil => rfl
  | cons l ls ih =>
    by_cases hd : st.done = true
    · rw [procLines_done h st _ hd]
    · rw [procLines_cons, if_neg hd, ih, procLine_raw]

theorem procLines_append (h : LineHandler) (st : TState) (ls1 ls2 : List (List Char)) :
    procLines h st (ls1 ++ ls2) = procLines h (procLines h st ls1) ls2 := by
  induction ls1 generalizing st with
  | nil => rfl
  | cons l ls1 ih =>
    by_cases hd : st.done = true
    · rw [List.cons_append, procLines_cons, if_pos hd, procLines_cons, if_pos hd,
        procLines_done h st ls2 hd]
    · rw [List.cons_append, procLines_cons, if_neg hd, procLines_cons, if_neg hd]
      exact ih (procLine h st l)

theorem procLine_mk (h : LineHandler) (bf rw0 : List Char) (cn : Nat) (dn : Bool)
    (ot : List String) (l : List Char) :
    procLine h (TState.mk bf rw0 cn dn ot) l =
      TState.mk bf rw0 (h cn l).2.1 (h cn l).2.2 (ot ++ (h cn l).1) := rfl

theorem procLines_mk_indep (h : LineHandler) (ls : List (List Char)) :
    ∀ (b1 r1 b2 r2 : List Char) (cn : Nat) (dn : Bool) (ot : List String),
    procLines h (TState.mk b1 r1 cn dn ot) ls =
      TState.mk b1 r1 (procLines h (TState.mk b2 r2 cn dn ot) ls).counter
        (procLines h (TState.mk b2 r2 cn dn ot) ls).done
        (procLines h (TState.mk b2 r2 cn dn ot) ls).out := by
  induction ls with
  | nil => intro b1 r1 b2 r2 cn dn ot; rfl
  | cons l ls ih =>
    intro b1 r1 b2 r2 cn dn ot
    by_cases hd : dn = true
    · subst hd
      rw [procLines_done h _ (l :: ls) rfl, procLines_done h _ (l :: ls) rfl]
    · have hdf : dn = false := by simpa using hd
      subst hdf
      rw [procLines_cons, procLines_cons, if_neg (by simp : ¬((TState.mk b1 r1 cn false ot).done = true)),
        if_neg (by simp : ¬((TState.mk b2 r2 cn false ot).done = true)),
        procLine_mk, procLine_mk]
      exact ih b1 r1 b2 r2 (h cn l).2.1 (h cn l).2.2 (ot ++ (h cn l).1)

theorem obsEq_refl (s : TState) : obsEq s s := ⟨rfl, rfl, fun _ => rfl⟩

theorem obsEq_of_eq {s t : TState} (h : s = t) : obsEq s t := by
  subst h; exact obsEq_refl s

theorem obsEq_symm {s t : TState} (h : obsEq s t) : obsEq t s := by
  obtain ⟨h1, h2, h3⟩ := h
  exact ⟨h1.symm, h2.symm, fun ht => (h3 (h2.trans ht)).symm⟩

theorem obsEq_trans {s t u : TState} (h1 : obsEq s t) (h2 : obsEq t u) : obsEq s u := by
  obtain ⟨a1, a2, a3⟩ := h1
  obtain ⟨b1, b2, b3⟩ := h2
  exact ⟨a1.trans b1, a2.trans b2, fun hs => (a3 hs).trans (b3 (a2 ▸ hs))⟩

theorem feedChunk_eq (h : LineHandler) (st : TState) (c : List Char) :
    feedChunk h st c =
      if st.done = true then st
      else procLines h { st with buffer := (splitNl (st.buffer ++ c)).2, raw := st.raw ++ c } (splitNl (st.buffer ++ c)).1 := rfl

theorem feedChunk_congr (h : LineHandler) {s t : TState} (he : obsEq s t)
    (c : List Char) : obsEq (feedChunk h s c) (feedChunk h t c) := by
  obtain ⟨h1, h2, h3⟩ := he
  by_cases hd : s.done = true
  · have ht : t.done = true := h2 ▸ hd
    rw [feedChunk_eq h s c, if_pos hd, feedChunk_eq h t c, if_pos ht]
    exact ⟨h1, h2, h3⟩
  · have hsf : s.done = false := by simpa using hd
    rw [h3 hsf]
    exact obsEq_refl _

theorem feedChunk_append (h : LineHandler) (st : TState) (c1 c2 : List Char) :
    obsEq (feedChunk h st (c1 ++ c2)) (feedChunk h (feedChunk h st c1) c2) := by
  obtain ⟨bf, rw0, cn, dn, ot⟩ := st
  by_cases hd : dn = true
  · subst hd
    rw [feedChunk_eq h _ (c1 ++ c2), if_pos rfl, feedChunk_eq h _ c1, if_pos rfl,
      feedChunk_eq h _ c2, if_pos rfl]
    exact obsEq_refl _
  · have hdf : dn = false := by simpa using hd
    subst hdf
    obtain ⟨hsp1, hsp2⟩ := splitNl_append (bf ++ c1) c2
    show obsEq
      (procLines h (TState.mk (splitNl (bf ++ (c1 ++ c2))).2 (rw0 ++ (c1 ++ c2)) cn false ot) (splitNl (bf ++ (c1 ++ c2))).1)
      (feedChunk h (procLines h (TState.mk (splitNl (bf ++ c1)).2 (rw0 ++ c1) cn false ot) (splitNl (bf ++ c1)).1) c2)
    have e1 : (splitNl (bf ++ (c1 ++ c2))).1 =
        (splitNl (bf ++ c1)).1 ++ (splitNl ((splitNl (bf ++ c1)).2 ++ c2)).1 := by
      rw [← List.append_assoc]; exact hsp1
    have e2 : (splitNl (bf ++ (c1 ++ c2))).2 =
        (splitNl ((splitNl (bf ++ c1)).2 ++ c2)).2 := by
      rw [← List.append_assoc]; exact hsp2
    rw [e1, e2, procLines_append,
      procLines_mk_indep h (splitNl (bf ++ c1)).1
        (splitNl ((splitNl (bf ++ c1)).2 ++ c2)).2 (rw0 ++ (c1 ++ c2))
        (splitNl (bf ++ c1)).2 (rw0 ++ c1) cn false ot]
    generalize hX : procLines h (TState.mk (splitNl (bf ++ c1)).2 (rw0 ++ c1) cn false ot) (splitNl (bf ++ c1)).1 = X
    by_cases h1 : X.done = true
    · have hLd : (TState.mk (splitNl ((splitNl (bf ++ c1)).2 ++ c2)).2 (rw0 ++ (c1 ++ c2)) X.counter X.done X.out).done = true := h1
      rw [procLines_done h _ _ hLd, feedChunk_eq h X c2, if_pos h1]
      refine ⟨rfl, rfl, fun hc => ?_⟩
      have hc2 : X.done = false := hc
      rw [hc2] at h1
      exact absurd h1 (by simp)
    · have hXb : X.buffer = (splitNl (bf ++ c1)).2 := by
        rw [← hX]; exact procLines_buffer h _ _
      have hXr : X.raw = rw0 ++ c1 := by
        rw [← hX]; exact procLines_raw h _ _
      rw [feedChunk_eq h X c2, if_neg h1, hXb, hXr, ← List.append_assoc]
      exact obsEq_of_eq rfl

theorem feedChunk_buffer_no_newline (h : LineHandler) (st : TState) (c : List Char)
    (hb : '\n' ∉ st.buffer) : '\n' ∉ (feedChunk h st c).buffer := by
  by_cases hd : st.done = true
  · rw [feedChunk_eq, if_pos hd]; exact hb
  · rw [feedChunk_eq, if_neg hd, procLines_buffer]
    exact splitNl_snd_no_newline (st.buffer ++ c)

theorem feedChunk_nil (h : LineHandler) (st : TState) (hb : '\n' ∉ st.buffer) :
    feedChunk h st [] = st := by
  by_cases hd : st.done = true
  · rw [feedChunk_eq, if_pos hd]
  · rw [feedChunk_eq, if_neg hd]
    rw [show st.buffer ++ ([] : List Char) = st.buffer from List.append_nil _,
      splitNl_of_no_newline st.buffer hb]
    show ({ st with buffer := st.buffer, raw := st.raw ++ [] } : TState) = st
    rw [List.append_nil]

theorem foldl_feed_join (h : LineHandler) (cs : List (List Char)) (st : TState)
    (hb : '\n' ∉ st.buffer) :
    obsEq (List.foldl (feedChunk h) st cs) (feedChunk h st cs.flatten) := by
  induction cs generalizing st with
  | nil =>
    simp only [List.foldl_nil, List.flatten_nil, feedChunk_nil h st hb]
    exact obsEq_refl st
  | cons c cs ih =>
    have step := ih (feedChunk h st c) (feedChunk_buffer_no_newline h st c hb)
    have happ := feedChunk_append h st c cs.flatten
    simp only [List.foldl_cons, List.flatten_cons]
    exact obsEq_trans step (obsEq_symm happ)

theorem runCore_join (h : LineHandler) (cs : List (List Char)) :
    obsEq (runCore h cs) (runCore h [cs.flatten]) := by
  have hb : '\n' ∉ initTS.buffer := by simp [initTS]
  have := foldl_feed_join h cs initTS hb
  simpa [runCore] using this

theorem processGen_eq (enableIS : Bool) (chunks : List (List Char)) :
    processGenerateStream enableIS chunks =
      if (runCore (genLine enableIS) chunks).done = true then
        { output := (runCore (genLine enableIS) chunks).out, closeCalls := 2, released := false }
      else
        { output := (runCore (genLine enableIS) chunks).out ++ genFallback (runCore (genLine enableIS) chunks).raw, closeCalls := 1, released := true } := rfl

theorem processChat_eq (enableIS : Bool) (chunks : List (List Char)) :
    processChatStream enableIS chunks =
      if (runCore (chatLine enableIS) chunks).done = true then
        { output := (runCore (chatLine enableIS) chunks).out, closeCalls := 2, released := false }
      else
        { output := (runCore (chatLine enableIS) chunks).out, closeCalls := 1, released := true } := rfl

theorem processGen_join (enableIS : Bool) (chunks : List (List Char)) :
    processGenerateStream enableIS chunks = processGenerateStream enableIS [chunks.flatten] := by
  rw [processGen_eq, processGen_eq]
  obtain ⟨ho, hd, hfull⟩ := runCore_join (genLine enableIS) chunks
  by_cases hdone : (runCore (genLine enableIS) chunks).done = true
  · rw [if_pos hdone, if_pos (hd.symm.trans hdone), ho]
  · have hsf : (runCore (genLine enableIS) chunks).done = false := by simpa using hdone
    rw [hfull hsf]

theorem processChat_join (enableIS : Bool) (chunks : List (List Char)) :
    processChatStream enableIS chunks = processChatStream enableIS [chunks.flatten] := by
  rw [processChat_eq, processChat_eq]
  obtain ⟨ho, hd, hfull⟩ := runCore_join (chatLine enableIS) chunks
  by_cases hdone : (runCore (chatLine enableIS) chunks).done = true
  · rw [if_pos hdone, if_pos (hd.symm.trans hdone), ho]
  · have hsf : (runCore (chatLine enableIS) chunks).done = false := by simpa using hdone
    rw [hfull hsf]

/-- C1: for both streaming transformers (generate-stream and chat-stream)
the produced output stream, together with the close and reader-release
behaviour, depends only on the concatenation of the decoded upstream
chunks and not on how that text was partitioned into chunks: the
carryover buffer reassembles every line split across a chunk boundary.
In particular the documented boundary split of a data line still yields
exactly the content hi in the generate variant, identical to the unsplit
input, and the chat variant also behaves identically to its unsplit
input. -/
theorem claim1_chunk_partition_invariance :
    (∀ (enableIS : Bool) (chunks : List (List Char)),
      processGenerateStream enableIS chunks = processGenerateStream enableIS [chunks.flatten]) ∧
    (∀ (enableIS : Bool) (chunks : List (List Char)),
      processChatStream enableIS chunks = processChatStream enableIS [chunks.flatten]) ∧
    processGenerateStream true [("data: \x7b\"val").toList, ("ue\":\"hi\"\x7d\n").toList] =
      processGenerateStream true [("data: \x7b\"value\":\"hi\"\x7d\n").toList] ∧
    (processGenerateStream true [("data: \x7b\"val").toList, ("ue\":\"hi\"\x7d\n").toList]).output = ["hi"] ∧
    processChatStream true [("data: \x7b\"val").toList, ("ue\":\"hi\"\x7d\n").toList] =
      processChatStream true [("data: \x7b\"value\":\"hi\"\x7d\n").toList] :=
  ⟨processGen_join, processChat_join, by decide, by decide, by decide⟩

theorem foldl_feed_done (h : LineHandler) (st : TState) (cs : List (List Char))
    (hd : st.done = true) : List.foldl (feedChunk h) st cs = st := by
  induction cs with
  | nil => rfl
  | cons c cs ih => rw [List.foldl_cons, feedChunk_eq, if_pos hd]; exact ih

theorem runCore_append_done (h : LineHandler) (cs extra : List (List Char))
    (hd : (runCore h cs).done = true) : runCore h (cs ++ extra) = runCore h cs := by
  rw [runCore, List.foldl_append]
  exact foldl_feed_done h _ extra hd

theorem genLine_done (enableIS : Bool) (c : Nat) (l : List Char)
    (hl : isDoneLine l = true) : genLine enableIS c l = ([], c, true) := by
  have hl2 : isDataLine l = true ∧ (trimL (l.drop 5) == ("[DONE]").toList) = true := by
    simpa [isDoneLine] using hl
  obtain ⟨h1, h2⟩ := hl2
  have h2' : trimL (l.drop 5) = ("[DONE]").toList := by simpa using h2
  have h1' : ("data: ").toList.isPrefixOf l = true := h1
  show (if ("data: ").toList.isPrefixOf l then _ else _) = _
  rw [if_pos h1', if_pos h2']

theorem chatLine_done (enableIS : Bool) (c : Nat) (l : List Char)
    (hl : isDoneLine l = true) : chatLine enableIS c l = ([], c, true) := by
  have hl2 : isDataLine l = true ∧ (trimL (l.drop 5) == ("[DONE]").toList) = true := by
    simpa [isDoneLine] using hl
  obtain ⟨h1, h2⟩ := hl2
  have h2' : trimL (l.drop 5) = ("[DONE]").toList := by simpa using h2
  have h1' : ("data: ").toList.isPrefixOf l = true := h1
  show (if ("data: ").toList.isPrefixOf l then _ else _) = _
  rw [if_pos h1', if_pos h2']

theorem procLines_stop (h : LineHandler) (d : List Char)
    (hd : ∀ c, h c d = ([], c, true)) (st : TState) (ls1 ls2 : List (List Char)) :
    procLines h st (ls1 ++ d :: ls2) = procLines h st (ls1 ++ [d]) := by
  induction ls1 generalizing st with
  | nil =>
    simp only [List.nil_append]
    by_cases hs : st.done = true
    · rw [procLines_done h st _ hs, procLines_done h st _ hs]
    · rw [procLines_cons, if_neg hs, procLines_cons, if_neg hs]
      have hpd : (procLine h st d).done = true := by
        show (h st.counter d).2.2 = true
        rw [hd st.counter]
      rw [procLines_done h _ ls2 hpd, procLines_done h _ [] hpd]
  | cons l ls1 ih =>
    by_cases hs : st.done = true
    · rw [List.cons_append, List.cons_append, procLines_done h st _ hs,
        procLines_done h st _ hs]
    · rw [List.cons_append, List.cons_append, procLines_cons, if_neg hs,
        procLines_cons, if_neg hs]
      exact ih (procLine h st l)

/-- C3: in either streaming variant the dispatch of a complete DONE
sentinel line closes the output stream at that point (the dispatched
line sets the closed flag) and nothing is emitted afterwards: the lines
after the sentinel are irrelevant to the whole dispatch, and once a run
has seen the sentinel, any further upstream chunks leave the transformer
result (output, close count, release flag) unchanged. -/
theorem claim3_done_sentinel_terminal :
    (∀ (enableIS : Bool) (st : TState) (ls1 : List (List Char)) (d : List Char) (ls2 : List (List Char)),
      isDoneLine d = true →
      procLines (genLine enableIS) st (ls1 ++ d :: ls2) = procLines (genLine enableIS) st (ls1 ++ [d])) ∧
    (∀ (enableIS : Bool) (st : TState) (ls1 : List (List Char)) (d : List Char) (ls2 : List (List Char)),
      isDoneLine d = true →
      procLines (chatLine enableIS) st (ls1 ++ d :: ls2) = procLines (chatLine enableIS) st (ls1 ++ [d])) ∧
    (∀ (enableIS : Bool) (st : TState) (d : List Char),
      isDoneLine d = true → (procLine (genLine enableIS) st d).done = true) ∧
    (∀ (enableIS : Bool) (st : TState) (d : List Char),
      isDoneLine d = true → (procLine (chatLine enableIS) st d).done = true) ∧
    (∀ (enableIS : Bool) (chunks extra : List (List Char)),
      (runCore (genLine enableIS) chunks).done = true →
      processGenerateStream enableIS (chunks ++ extra) = processGenerateStream enableIS chunks) ∧
    (∀ (enableIS : Bool) (chunks extra : List (List Char)),
      (runCore (chatLine enableIS) chunks).done = true →
      processChatStream enableIS (chunks ++ extra) = processChatStream enableIS chunks) := by
  refine ⟨?_, ?_, ?_, ?_, ?_, ?_⟩
  · intro eIS st ls1 d ls2 hd
    exact procLines_stop (genLine eIS) d (fun c => genLine_done eIS c d hd) st ls1 ls2
  · intro eIS st ls1 d ls2 hd
    exact procLines_stop (chatLine eIS) d (fun c => chatLine_done eIS c d hd) st ls1 ls2
  · intro eIS st d hd
    show (genLine eIS st.counter d).2.2 = true
    rw [genLine_done eIS st.counter d hd]
  · intro eIS st d hd
    show (chatLine eIS st.counter d).2.2 = true
    rw [chatLine_done eIS st.counter d hd]
  · intro eIS chunks extra hd
    rw [processGen_eq, processGen_eq, runCore_append_done _ _ _ hd]
  · intro eIS chunks extra hd
    rw [processChat_eq, processChat_eq, runCore_append_done _ _ _ hd]

/-- C3 witness: the sentinel terminality instantiated on a concrete run
where a data line with content X is buffered after the sentinel. -/
theorem claim3_witness :
    processChatStream true ([("data: [DONE]\n").toList] ++ [("data: \x7b\"choices\":[\x7b\"delta\":\x7b\"content\":\"X\"\x7d\x7d]\x7d\n").toList]) =
      processChatStream true [("data: [DONE]\n").toList] :=
  claim3_done_sentinel_terminal.2.2.2.2.2 true [("data: [DONE]\n").toList]
    [("data: \x7b\"choices\":[\x7b\"delta\":\x7b\"content\":\"X\"\x7d\x7d]\x7d\n").toList] (by decide)

theorem probeFirst_nil (j : Json) : probeFirst [] j = none := rfl

theorem probeFirst_cons (p : Json → Option Json) (ps : List (Json → Option Json)) (j : Json) :
    probeFirst (p :: ps) j =
      match p j with
      | some v => if truthy v then some v else probeFirst ps j
      | none => probeFirst ps j := by
  cases hp : p j with
  | none => simp [probeFirst, List.findSome?_cons, hp]
  | some v =>
    by_cases ht : truthy v = true
    · simp [probeFirst, List.findSome?_cons, hp, ht]
    · have ht' : truthy v = false := by simpa using ht
      simp [probeFirst, List.findSome?_cons, hp, ht']

theorem strContent_or_none (b : Option Json) : strContent (jsOr none b) = strContent b := rfl

theorem strContent_or_truthy (v : Json) (b : Option Json) (h : truthy v = true) :
    strContent (jsOr (some v) b) = strContent (some v) := by
  simp [jsOr, h]

theorem strContent_or_falsy (v : Json) (b : Option Json) (h : truthy v = false) :
    strContent (jsOr (some v) b) = strContent b := by
  simp [jsOr, h]

theorem strContent_falsy_none (v : Json) (h : truthy v = false) :
    strContent (some v) = none := by
  cases v <;> simp_all [strContent, truthy]

theorem strContent_last (d : Option Json) : strContent (jsOr d none) = strContent d := by
  cases d with
  | none => rfl
  | some v =>
    by_cases ht : truthy v = true
    · rw [strContent_or_truthy v none ht]
    · have ht' : truthy v = false := by simpa using ht
      rw [strContent_or_falsy v none ht', strContent_falsy_none v ht']
      rfl

theorem strContent_or_congr (a : Option Json) {b1 b2 : Option Json}
    (h : strContent b1 = strContent b2) :
    strContent (jsOr a b1) = strContent (jsOr a b2) := by
  cases a with
  | none => exact h
  | some v =>
    by_cases ht : truthy v = true
    · rw [strContent_or_truthy v b1 ht, strContent_or_truthy v b2 ht]
    · have ht' : truthy v = false := by simpa using ht
      rw [strContent_or_falsy v b1 ht', strContent_or_falsy v b2 ht']
      exact h

theorem strContent_chain_spec (ps : List (Json → Option Json)) (j : Json) :
    (match strContent (ps.foldr (fun p acc => jsOr (p j) acc) none) with
     | some s => [s]
     | none => ([] : List String)) =
      (match probeFirst ps j with
       | some (Json.str s) => [s]
       | _ => []) := by
  induction ps with
  | nil => rfl
  | cons p ps ih =>
    rw [List.foldr_cons, probeFirst_cons]
    cases hp : p j with
    | none =>
      rw [strContent_or_none]
      exact ih
    | some v =>
      by_cases ht : truthy v = true
      · rw [strContent_or_truthy v _ ht]
        show (match strContent (some v) with
          | some s => [s]
          | none => ([] : List String)) =
          (match (if truthy v = true then some v else probeFirst ps j) with
           | some (Json.str s) => [s]
           | _ => [])
        rw [if_pos ht]
        cases v <;> simp_all [strContent, truthy]
      · have ht' : truthy v = false := by simpa using ht
        rw [strContent_or_falsy v _ ht']
        show (match strContent (List.foldr (fun p acc => jsOr (p j) acc) none ps) with
          | some s => [s]
          | none => ([] : List String)) =
          (match (if truthy v = true then some v else probeFirst ps j) with
           | some (Json.str s) => [s]
           | _ => [])
        rw [if_neg ht]
        exact ih

theorem genExtract_strContent (j : Json) :
    strContent (genExtract j) =
      strContent (genProbes.foldr (fun p acc => jsOr (p j) acc) none) := by
  show strContent (jsOr (jsGet j "value") (jsOr (jsGet j "output") (jsOr (jsGet j "answer") (jsOr (choicesMsgContent j) (choicesDeltaContent j))))) =
    strContent (jsOr (jsGet j "value") (jsOr (jsGet j "output") (jsOr (jsGet j "answer") (jsOr (choicesMsgContent j) (jsOr (choicesDeltaContent j) none)))))
  exact strContent_or_congr _ (strContent_or_congr _ (strContent_or_congr _
    (strContent_or_congr _ (strContent_last _).symm)))

theorem genEmit_eq (j : Json) :
    (match strContent (genExtract j) with
     | some s => [s]
     | none => ([] : List String)) = genEmitSpec j := by
  rw [genExtract_strContent]
  exact strContent_chain_spec genProbes j

theorem chatOr_spec (j : Json) (k : Nat) :
    (match jsOr (choicesMsgContent j) (choicesDeltaContent j) with
     | some v => if truthy v then [jsToStringF k v] else []
     | none => ([] : List String)) =
      (match probeFirst chatProbes j with
       | some v => [jsToStringF k v]
       | none => []) := by
  show _ = (match probeFirst (choicesMsgContent :: [choicesDeltaContent]) j with
    | some v => [jsToStringF k v]
    | none => [])
  rw [probeFirst_cons, probeFirst_cons]
  cases h1 : choicesMsgContent j with
  | none =>
    cases h2 : choicesDeltaContent j with
    | none => rfl
    | some w =>
      by_cases ht : truthy w = true
      · simp [jsOr, ht, probeFirst_nil]
      · have ht' : truthy w = false := by simpa using ht
        simp [jsOr, ht', probeFirst_nil]
  | some v =>
    by_cases ht : truthy v = true
    · simp [jsOr, ht, probeFirst_nil]
    · have ht' : truthy v = false := by simpa using ht
      cases h2 : choicesDeltaContent j with
      | none => simp [jsOr, ht', probeFirst_nil]
      | some w =>
        by_cases ht2 : truthy w = true
        · simp [jsOr, ht', ht2, probeFirst_nil]
        · have ht2' : truthy w = false := by simpa using ht2
          simp [jsOr, ht', ht2', probeFirst_nil]

theorem chatTriple (k c : Nat) (j : Json) :
    (match jsOr (choicesMsgContent j) (choicesDeltaContent j) with
     | some v => if truthy v then ([jsToStringF k v], c, false) else (([] : List String), c, false)
     | none => (([] : List String), c, false)) =
      ((match probeFirst chatProbes j with
        | some v => [jsToStringF k v]
        | none => []), c, false) := by
  have h := chatOr_spec j k
  cases ho : jsOr (choicesMsgContent j) (choicesDeltaContent j) with
  | none =>
    rw [ho] at h
    rw [← h]
  | some v =>
    rw [ho] at h
    replace h : (if truthy v = true then [jsToStringF k v] else ([] : List String)) =
      (match probeFirst chatProbes j with
       | some v => [jsToStringF k v]
       | none => []) := h
    show (if truthy v = true then ([jsToStringF k v], c, false) else (([] : List String), c, false)) =
      ((match probeFirst chatProbes j with
        | some v => [jsToStringF k v]
        | none => []), c, false)
    by_cases ht : truthy v = true
    · rw [if_pos ht] at h
      rw [if_pos ht, ← h]
    · rw [if_neg ht] at h
      rw [if_neg ht, ← h]

theorem genLine_data (enableIS : Bool) (c : Nat) (l : List Char) (j : Json)
    (hdata : isDataLine l = true) (hnd : trimL (l.drop 5) ≠ ("[DONE]").toList)
    (hp : jsonParse (l.drop 5) = some j) :
    genLine enableIS c l = (genEmitSpec j, c, false) := by
  have h1' : ("data: ").toList.isPrefixOf l = true := hdata
  show (if ("data: ").toList.isPrefixOf l then _ else _) = _
  rw [if_pos h1']
  show (if trimL (l.drop 5) = ("[DONE]").toList then _ else _) = _
  rw [if_neg hnd, hp]
  show (match strContent (genExtract j) with
    | some s => ([s], c, false)
    | none => ([], c, false)) = (genEmitSpec j, c, false)
  have he := genEmit_eq j
  cases hs : strContent (genExtract j) with
  | some s =>
    rw [hs] at he
    replace he : [s] = genEmitSpec j := he
    rw [← he]
  | none =>
    rw [hs] at he
    replace he : ([] : List String) = genEmitSpec j := he
    rw [← he]

theorem genLine_data_none (enableIS : Bool) (c : Nat) (l : List Char)
    (hdata : isDataLine l = true) (hnd : trimL (l.drop 5) ≠ ("[DONE]").toList)
    (hp : jsonParse (l.drop 5) = none) :
    genLine enableIS c l = ([], c, false) := by
  have h1' : ("data: ").toList.isPrefixOf l = true := hdata
  show (if ("data: ").toList.isPrefixOf l then _ else _) = _
  rw [if_pos h1']
  show (if trimL (l.drop 5) = ("[DONE]").toList then _ else _) = _
  rw [if_neg hnd, hp]

theorem chatLine_data (enableIS : Bool) (c : Nat) (l : List Char) (j : Json)
    (hdata : isDataLine l = true) (hnd : trimL (l.drop 5) ≠ ("[DONE]").toList)
    (hp : jsonParse (l.drop 5) = some j) :
    chatLine enableIS c l = (chatEmitSpec (l.drop 5) j, c, false) := by
  have h1' : ("data: ").toList.isPrefixOf l = true := hdata
  show (if ("data: ").toList.isPrefixOf l then _ else _) = _
  rw [if_pos h1']
  show (if trimL (l.drop 5) = ("[DONE]").toList then _ else _) = _
  rw [if_neg hnd, hp]
  cases j with
  | null => rfl
  | bool b => exact chatTriple ((l.drop 5).length + 8) c (Json.bool b)
  | num n => exact chatTriple ((l.drop 5).length + 8) c (Json.num n)
  | str s => exact chatTriple ((l.drop 5).length + 8) c (Json.str s)
  | arr xs => exact chatTriple ((l.drop 5).length + 8) c (Json.arr xs)
  | obj kvs => exact chatTriple ((l.drop 5).length + 8) c (Json.obj kvs)

theorem chatLine_data_none (enableIS : Bool) (c : Nat) (l : List Char)
    (hdata : isDataLine l = true) (hnd : trimL (l.drop 5) ≠ ("[DONE]").toList)
    (hp : jsonParse (l.drop 5) = none) :
    chatLine enableIS c l = ([], c, false) := by
  have h1' : ("data: ").toList.isPrefixOf l = true := hdata
  show (if ("data: ").toList.isPrefixOf l then _ else _) = _
  rw [if_pos h1']
  show (if trimL (l.drop 5) = ("[DONE]").toList then _ else _) = _
  rw [if_neg hnd, hp]

/-- C2 (amended): for every complete data-prefixed line that is not the
DONE sentinel, the generate stream transformer probes value, output,
answer, choices[0].message.content, choices[0].delta.content in order by
JavaScript truthiness and emits the first truthy probe result exactly
when it is a string, while the chat stream transformer probes only
choices[0].message.content then choices[0].delta.content and emits the
first truthy result; in both variants a JSON parse failure (or a line
with no match) emits nothing and leaves the stream open (the closed flag
stays false, so the stream is not aborted). -/
theorem claim2_data_line_extraction :
    (∀ (enableIS : Bool) (c : Nat) (l : List Char) (j : Json),
      isDataLine l = true →
      trimL (l.drop 5) ≠ ("[DONE]").toList →
      jsonParse (l.drop 5) = some j →
      genLine enableIS c l = (genEmitSpec j, c, false) ∧
      chatLine enableIS c l = (chatEmitSpec (l.drop 5) j, c, false)) ∧
    (∀ (enableIS : Bool) (c : Nat) (l : List Char),
      isDataLine l = true →
      trimL (l.drop 5) ≠ ("[DONE]").toList →
      jsonParse (l.drop 5) = none →
      genLine enableIS c l = ([], c, false) ∧ chatLine enableIS c l = ([], c, false)) := by
  constructor
  · intro eIS c l j hdata hnd hp
    exact ⟨genLine_data eIS c l j hdata hnd hp, chatLine_data eIS c l j hdata hnd hp⟩
  · intro eIS c l hdata hnd hp
    exact ⟨genLine_data_none eIS c l hdata hnd hp, chatLine_data_none eIS c l hdata hnd hp⟩

/-- C2 witness: the amended extraction rule applied to a concrete
generate and chat data line carrying an output field. -/
theorem claim2_witness :
    genLine true 0 (("data: \x7b\"output\":\"ok\"\x7d").toList) =
      (genEmitSpec (Json.obj [("output", Json.str "ok")]), 0, false) ∧
    chatLine true 0 (("data: \x7b\"output\":\"ok\"\x7d").toList) =
      (chatEmitSpec ((("data: \x7b\"output\":\"ok\"\x7d").toList).drop 5)
        (Json.obj [("output", Json.str "ok")]), 0, false) :=
  claim2_data_line_extraction.1 true 0 (("data: \x7b\"output\":\"ok\"\x7d").toList)
    (Json.obj [("output", Json.str "ok")]) (by decide) (by decide) (by rfl)

/-- C2 counterexample: the chat stream transformer drops a data line
whose JSON carries a non-empty string in the value field (the first
probe of the claimed shared precedence list), emitting nothing, while
the claim requires hi to be emitted for both variants. -/
theorem claim2_counterexample :
    jsonParse ((("data: \x7b\"value\":\"hi\"\x7d").toList).drop 5) =
      some (Json.obj [("value", Json.str "hi")]) ∧
    (processChatStream true [("data: \x7b\"value\":\"hi\"\x7d\n").toList]).output = [] := by
  constructor
  · rfl
  · decide

theorem inter_not_data (l : List Char) (hp : interSep.isPrefixOf l = true) :
    ("data: ").toList.isPrefixOf l = false := by
  obtain ⟨t, rfl⟩ := List.isPrefixOf_iff_prefix.mp hp
  rfl

/-- C8 (amended): with enableIntermediateSteps false the chat stream
transformer emits nothing for a line prefixed with intermediate_data,
but the generate stream transformer is not gated on the flag for such
lines and still emits the serialized intermediate step event; with the
flag true the chat variant emits the same event. -/
theorem claim8_intermediate_gating :
    (∀ (c : Nat) (l : List Char), interSep.isPrefixOf l = true →
      chatLine false c l = ([], c, false)) ∧
    (∀ (c : Nat) (l : List Char), interSep.isPrefixOf l = true →
      genLine false c l = ((interEmit c l).1, (interEmit c l).2, false)) ∧
    (∀ (c : Nat) (l : List Char), interSep.isPrefixOf l = true →
      chatLine true c l = ((interEmit c l).1, (interEmit c l).2, false)) := by
  refine ⟨?_, ?_, ?_⟩
  · intro c l hp
    have hnd := inter_not_data l hp
    have hnd' : ¬(("data: ").toList.isPrefixOf l = true) := by rw [hnd]; simp
    show (if ("data: ").toList.isPrefixOf l then _ else _) = _
    rw [if_neg hnd']
    show (if interSep.isPrefixOf l && false then _ else _) = _
    rw [if_neg (by simp)]
  · intro c l hp
    have hnd := inter_not_data l hp
    have hnd' : ¬(("data: ").toList.isPrefixOf l = true) := by rw [hnd]; simp
    show (if ("data: ").toList.isPrefixOf l then _ else _) = _
    rw [if_neg hnd']
    show (if containsSeq ("<intermediatestep>").toList l && containsSeq ("</intermediatestep>").toList l && false then _ else _) = _
    rw [if_neg (by simp)]
    show (if interSep.isPrefixOf l then _ else _) = _
    rw [if_pos hp]
  · intro c l hp
    have hnd := inter_not_data l hp
    have hnd' : ¬(("data: ").toList.isPrefixOf l = true) := by rw [hnd]; simp
    show (if ("data: ").toList.isPrefixOf l then _ else _) = _
    rw [if_neg hnd']
    show (if interSep.isPrefixOf l && true then _ else _) = _
    rw [if_pos (by simp [hp])]

/-- C8 witness: the chat-variant gating applied to a concrete
intermediate_data line with the flag off. -/
theorem claim8_witness :
    chatLine false 0 (("intermediate_data: \x7b\"id\":\"w\"\x7d").toList) = ([], 0, false) :=
  claim8_intermediate_gating.1 0 (("intermediate_data: \x7b\"id\":\"w\"\x7d").toList) (by decide)

/-- C8 counterexample: with enableIntermediateSteps false the generate
stream transformer still emits an intermediatestep-wrapped event for an
intermediate_data line, contradicting the claim that neither variant
does. -/
theorem claim8_counterexample :
    (processGenerateStream false [("intermediate_data: \x7b\"id\":\"a\"\x7d\n").toList]).output ≠ [] ∧
    ("<intermediatestep>").toList.isPrefixOf
      (((processGenerateStream false [("intermediate_data: \x7b\"id\":\"a\"\x7d\n").toList]).output.headD "").toList) = true := by
  constructor
  · decide
  · decide

/-- C9 (amended): the generate-family payload builder fails exactly when
the messages list is empty or the content of its last message is empty;
it never inspects the role.  The CA-RAG guard fails exactly when the
list is empty or the last message is not a user turn.  The chat-family
builder never fails: the handler always reaches an outbound payload with
the full transcript for chat endpoints regardless of role ordering. -/
theorem claim9_builder_guards :
    (∀ messages : List Message, messages.getLast? = none →
      buildGeneratePayload messages = Except.error "User message not found.") ∧
    (∀ (messages : List Message) (m : Message), messages.getLast? = some m → m.content = "" →
      buildGeneratePayload messages = Except.error "User message not found.") ∧
    (∀ (messages : List Message) (m : Message), messages.getLast? = some m → m.content ≠ "" →
      buildGeneratePayload messages = Except.ok (Json.obj [("input_message", Json.str m.content)])) ∧
    (∀ messages : List Message, caRagGuardOk messages = true ↔
      ∃ m, messages.getLast? = some m ∧ m.role = "user") ∧
    (∀ messages : List Message, payloadStage CHAT_ENDPOINT messages "" =
      Outcome.callBackend (buildOpenAIChatPayload messages false)) ∧
    (∀ messages : List Message, payloadStage CHAT_STREAM_ENDPOINT messages "" =
      Outcome.callBackend (buildOpenAIChatPayload messages true)) := by
  refine ⟨?_, ?_, ?_, ?_, ?_, ?_⟩
  · intro ms h
    simp [buildGeneratePayload, h]
  · intro ms m h hc
    simp [buildGeneratePayload, h, hc]
  · intro ms m h hc
    simp [buildGeneratePayload, h, hc]
  · intro ms
    cases hlast : ms.getLast? with
    | none =>
      have hempty : ms = [] := List.getLast?_eq_none_iff.mp hlast
      subst hempty
      simp [caRagGuardOk]
    | some m =>
      have hne : ms ≠ [] := by
        intro hh
        subst hh
        simp at hlast
      have hie : ms.isEmpty = false := by
        cases ms with
        | nil => exact absurd rfl hne
        | cons a t => rfl
      simp [caRagGuardOk, hlast, hie]
  · intro ms
    rfl
  · intro ms
    rfl

/-- C9 witness: the generate builder succeeding on a user turn with
non-empty content. -/
theorem claim9_witness :
    buildGeneratePayload [Message.mk "user" "hi"] =
      Except.ok (Json.obj [("input_message", Json.str "hi")]) :=
  claim9_builder_guards.2.2.1 [Message.mk "user" "hi"] (Message.mk "user" "hi")
    (by rfl) (by decide)

/-- C9 counterexample: the generate builder accepts a transcript whose
last message is an assistant turn with non-empty content, returning a
payload instead of the invalid-request failure the claim requires. -/
theorem claim9_counterexample :
    buildGeneratePayload [Message.mk "assistant" "hello"] =
      Except.ok (Json.obj [("input_message", Json.str "hello")]) ∧
    (Message.mk "assistant" "hello").role ≠ "user" :=
  ⟨rfl, by decide⟩

theorem contains_iff_mem_str (l : List String) (k : String) :
    l.contains k = true ↔ k ∈ l := List.elem_iff

theorem find_reserved (keys : List String) (k : String) (hk : k ∈ keys)
    (hr : reservedFields.contains k = true) :
    ∃ k2, keys.find? (fun x => reservedFields.contains x) = some k2 ∧
      k2 ∈ keys ∧ reservedFields.contains k2 = true := by
  have hsome : (keys.find? (fun x => reservedFields.contains x)).isSome = true :=
    List.find?_isSome.mpr ⟨k, hk, hr⟩
  obtain ⟨k2, hk2⟩ := Option.isSome_iff_exists.mp hsome
  exact ⟨k2, hk2, List.mem_of_find?_eq_some hk2, List.find?_some hk2⟩

theorem payloadStage_chat_eq (ms : List Message) (ogp : String) :
    payloadStage CHAT_ENDPOINT ms ogp =
      if ogp != "" && !(trimL ogp.toList).isEmpty then
        match jsonParse ogp.toList with
        | none => Outcome.respond 400 "Invalid additional JSON body format"
        | some (Json.obj kvs) =>
          (match (kvs.map Prod.fst).find? (fun k => reservedFields.contains k) with
           | some k =>
             Outcome.respond 400
               ("optionalGenerationParameters cannot override reserved field: " ++ k)
           | none => Outcome.callBackend (jsSpread (buildOpenAIChatPayload ms false) kvs))
        | some _ => Outcome.callBackend (buildOpenAIChatPayload ms false)
      else Outcome.callBackend (buildOpenAIChatPayload ms false) := rfl

theorem payloadStage_chatStream_eq (ms : List Message) (ogp : String) :
    payloadStage CHAT_STREAM_ENDPOINT ms ogp =
      if ogp != "" && !(trimL ogp.toList).isEmpty then
        match jsonParse ogp.toList with
        | none => Outcome.respond 400 "Invalid additional JSON body format"
        | some (Json.obj kvs) =>
          (match (kvs.map Prod.fst).find? (fun k => reservedFields.contains k) with
           | some k =>
             Outcome.respond 400
               ("optionalGenerationParameters cannot override reserved field: " ++ k)
           | none => Outcome.callBackend (jsSpread (buildOpenAIChatPayload ms true) kvs))
        | some _ => Outcome.callBackend (buildOpenAIChatPayload ms true)
      else Outcome.callBackend (buildOpenAIChatPayload ms true) := rfl

/-- C5: on a chat-family endpoint, when optionalGenerationParameters
parses to a plain JSON object containing at least one reserved key among
messages, stream, input_message, the merge stage answers HTTP 400 naming
an offending reserved key that occurs in the object, so the handler
makes no outbound call and merges none of the keys (the Outcome is a
respond, not a callBackend). -/
theorem claim5_reserved_field_rejection :
    ∀ (e : String), (e = CHAT_ENDPOINT ∨ e = CHAT_STREAM_ENDPOINT) →
    ∀ (messages : List Message) (ogp : String) (kvs : List (String × Json)),
    trimL ogp.toList ≠ [] →
    jsonParse ogp.toList = some (Json.obj kvs) →
    (∃ k, k ∈ kvs.map Prod.fst ∧ k ∈ reservedFields) →
    ∃ k2, k2 ∈ kvs.map Prod.fst ∧ k2 ∈ reservedFields ∧
      payloadStage e messages ogp =
        Outcome.respond 400
          ("optionalGenerationParameters cannot override reserved field: " ++ k2) := by
  intro e he ms ogp kvs htrim hp hex
  obtain ⟨k, hkmem, hkres⟩ := hex
  have hne : ogp ≠ "" := by
    intro hh
    subst hh
    exact htrim rfl
  have h1 : (ogp != "") = true := bne_iff_ne.mpr hne
  have hieb : (trimL ogp.toList).isEmpty = false := by
    cases htl : trimL ogp.toList with
    | nil => exact absurd htl htrim
    | cons a t => rfl
  have hgate : (ogp != "" && !(trimL ogp.toList).isEmpty) = true := by
    rw [h1, hieb]
    rfl
  have hr : reservedFields.contains k = true := (contains_iff_mem_str _ _).mpr hkres
  obtain ⟨k2, hfind, hk2mem, hk2res⟩ := find_reserved (kvs.map Prod.fst) k hkmem hr
  refine ⟨k2, hk2mem, (contains_iff_mem_str _ _).mp hk2res, ?_⟩
  rcases he with rfl | rfl
  · rw [payloadStage_chat_eq, if_pos hgate, hp]
    show (match (kvs.map Prod.fst).find? (fun k => reservedFields.contains k) with
      | some k =>
        Outcome.respond 400
          ("optionalGenerationParameters cannot override reserved field: " ++ k)
      | none => Outcome.callBackend (jsSpread (buildOpenAIChatPayload ms false) kvs)) =
        Outcome.respond 400
          ("optionalGenerationParameters cannot override reserved field: " ++ k2)
    rw [hfind]
  · rw [payloadStage_chatStream_eq, if_pos hgate, hp]
    show (match (kvs.map Prod.fst).find? (fun k => reservedFields.contains k) with
      | some k =>
        Outcome.respond 400
          ("optionalGenerationParameters cannot override reserved field: " ++ k)
      | none => Outcome.callBackend (jsSpread (buildOpenAIChatPayload ms true) kvs)) =
        Outcome.respond 400
          ("optionalGenerationParameters cannot override reserved field: " ++ k2)
    rw [hfind]

/-- C5 witness: the documented reserved-field probe on the chat endpoint. -/
theorem claim5_witness :
    ∃ k2, k2 ∈ ([(("messages" : String), Json.arr [])].map Prod.fst) ∧ k2 ∈ reservedFields ∧
      payloadStage CHAT_ENDPOINT [] ("\x7b\"messages\": []\x7d") =
        Outcome.respond 400
          ("optionalGenerationParameters cannot override reserved field: " ++ k2) :=
  claim5_reserved_field_rejection CHAT_ENDPOINT (Or.inl rfl) [] ("\x7b\"messages\": []\x7d")
    [("messages", Json.arr [])] (by decide) (by rfl) ⟨"messages", by decide, by decide⟩

/-- C10: on a chat-family endpoint, when optionalGenerationParameters is
non-empty after trimming and parses as JSON that is not a plain object
(array, string, number, boolean or null), the merge stage raises no
error: the outbound payload is exactly the chat payload built from the
transcript, unchanged. -/
theorem claim10_non_object_params_ignored :
    (∀ (messages : List Message) (ogp : String) (j : Json),
      trimL ogp.toList ≠ [] →
      jsonParse ogp.toList = some j →
      (∀ kvs, j ≠ Json.obj kvs) →
      payloadStage CHAT_ENDPOINT messages ogp =
        Outcome.callBackend (buildOpenAIChatPayload messages false)) ∧
    (∀ (messages : List Message) (ogp : String) (j : Json),
      trimL ogp.toList ≠ [] →
      jsonParse ogp.toList = some j →
      (∀ kvs, j ≠ Json.obj kvs) →
      payloadStage CHAT_STREAM_ENDPOINT messages ogp =
        Outcome.callBackend (buildOpenAIChatPayload messages true)) := by
  constructor
  · intro ms ogp j htrim hp hno
    have hne : ogp ≠ "" := by
      intro hh
      subst hh
      exact htrim rfl
    have h1 : (ogp != "") = true := bne_iff_ne.mpr hne
    have hieb : (trimL ogp.toList).isEmpty = false := by
      cases htl : trimL ogp.toList with
      | nil => exact absurd htl htrim
      | cons a t => rfl
    rw [payloadStage_chat_eq, if_pos (by rw [h1, hieb]; rfl), hp]
    cases j with
    | obj kvs => exact absurd rfl (hno kvs)
    | null => rfl
    | bool b => rfl
    | num n => rfl
    | str s => rfl
    | arr xs => rfl
  · intro ms ogp j htrim hp hno
    have hne : ogp ≠ "" := by
      intro hh
      subst hh
      exact htrim rfl
    have h1 : (ogp != "") = true := bne_iff_ne.mpr hne
    have hieb : (trimL ogp.toList).isEmpty = false := by
      cases htl : trimL ogp.toList with
      | nil => exact absurd htl htrim
      | cons a t => rfl
    rw [payloadStage_chatStream_eq, if_pos (by rw [h1, hieb]; rfl), hp]
    cases j with
    | obj kvs => exact absurd rfl (hno kvs)
    | null => rfl
    | bool b => rfl
    | num n => rfl
    | str s => rfl
    | arr xs => rfl

/-- C10 witness: a JSON array in optionalGenerationParameters leaves the
chat payload untouched. -/
theorem claim10_witness :
    payloadStage CHAT_ENDPOINT [] ("[1, 2]") =
      Outcome.callBackend (buildOpenAIChatPayload [] false) :=
  claim10_non_object_params_ignored.1 [] ("[1, 2]") (Json.arr [Json.num 1, Json.num 2])
    (by decide) (by rfl) (fun kvs h => Json.noConfusion h)

theorem caRag_guardFail (memo : List String) (messages : List Message)
    (cid uuid : String) (iok : Bool) (hg : caRagGuardOk messages = false) :
    buildContextAwareRAGPayload memo messages cid uuid iok =
      CaRagResult.mk memo false false := by
  show (if !caRagGuardOk messages then _ else _) = _
  rw [if_pos (by rw [hg]; rfl)]

theorem caRag_memoized (memo : List String) (messages : List Message)
    (cid uuid : String) (iok : Bool)
    (hg : caRagGuardOk messages = true)
    (hcont : memo.contains (caRagKey uuid cid) = true) :
    buildContextAwareRAGPayload memo messages cid uuid iok =
      CaRagResult.mk memo false true := by
  show (if !caRagGuardOk messages then _ else _) = _
  rw [if_neg (by rw [hg]; decide)]
  show (if memo.contains (caRagKey uuid cid) then _ else _) = _
  rw [if_pos hcont]

theorem caRag_first_ok (memo : List String) (messages : List Message)
    (cid uuid : String)
    (hg : caRagGuardOk messages = true)
    (hcont : memo.contains (caRagKey uuid cid) = false) :
    buildContextAwareRAGPayload memo messages cid uuid true =
      CaRagResult.mk (caRagKey uuid cid :: memo) true true := by
  show (if !caRagGuardOk messages then _ else _) = _
  rw [if_neg (by rw [hg]; decide)]
  show (if memo.contains (caRagKey uuid cid) then _ else _) = _
  rw [if_neg (by rw [hcont]; decide)]
  show (if (true : Bool) then _ else _) = _
  rw [if_pos rfl]

theorem caRag_first_fail (memo : List String) (messages : List Message)
    (cid uuid : String)
    (hg : caRagGuardOk messages = true)
    (hcont : memo.contains (caRagKey uuid cid) = false) :
    buildContextAwareRAGPayload memo messages cid uuid false =
      CaRagResult.mk memo true false := by
  show (if !caRagGuardOk messages then _ else _) = _
  rw [if_neg (by rw [hg]; decide)]
  show (if memo.contains (caRagKey uuid cid) then _ else _) = _
  rw [if_neg (by rw [hcont]; decide)]
  show (if (false : Bool) then _ else _) = _
  rw [if_neg (by decide)]

theorem caRag_memo_mono (memo : List String) (messages : List Message)
    (cid uuid : String) (iok : Bool) (k : String) (hk : k ∈ memo) :
    k ∈ (buildContextAwareRAGPayload memo messages cid uuid iok).memo := by
  by_cases hg : caRagGuardOk messages = true
  · by_cases hcont : memo.contains (caRagKey uuid cid) = true
    · rw [caRag_memoized memo messages cid uuid iok hg hcont]
      exact hk
    · have hcf : memo.contains (caRagKey uuid cid) = false := by simpa using hcont
      cases iok with
      | true =>
        rw [caRag_first_ok memo messages cid uuid hg hcf]
        exact List.mem_cons_of_mem _ hk
      | false =>
        rw [caRag_first_fail memo messages cid uuid hg hcf]
        exact hk
  · have hgf : caRagGuardOk messages = false := by simpa using hg
    rw [caRag_guardFail memo messages cid uuid iok hgf]
    exact hk

/-- C7: once a successful init is recorded for a conversation key, any
call finding the key in the memo set issues no init network call and
leaves the memo unchanged; a failed init response records nothing, and a
first successful init records exactly the key; recorded keys persist
through any further sequence of calls; distinct non-empty conversation
ids yield distinct keys under the same RAG uuid; and the documented
scenario (two sequential calls on one conversation then one on another)
issues exactly two init calls, one per key. -/
theorem claim7_init_memoization :
    (∀ (memo : List String) (messages : List Message) (cid uuid : String) (iok : Bool),
      caRagKey uuid cid ∈ memo →
      (buildContextAwareRAGPayload memo messages cid uuid iok).initCalled = false ∧
      (buildContextAwareRAGPayload memo messages cid uuid iok).memo = memo) ∧
    (∀ (memo : List String) (messages : List Message) (cid uuid : String),
      (buildContextAwareRAGPayload memo messages cid uuid false).memo = memo) ∧
    (∀ (memo : List String) (messages : List Message) (cid uuid : String),
      caRagGuardOk messages = true → caRagKey uuid cid ∉ memo →
      (buildContextAwareRAGPayload memo messages cid uuid true).memo = caRagKey uuid cid :: memo ∧
      (buildContextAwareRAGPayload memo messages cid uuid true).initCalled = true) ∧
    (∀ (uuid k : String) (memo : List String) (calls : List (List Message × String × Bool)),
      k ∈ memo → k ∈ (caRagRun uuid memo calls).1) ∧
    (∀ (uuid c1 c2 : String), c1 ≠ "" → c2 ≠ "" → c1 ≠ c2 →
      caRagKey uuid c1 ≠ caRagKey uuid c2) ∧
    caRagRun "123456" [] [([Message.mk "user" "q"], "c1", true), ([Message.mk "user" "q"], "c1", true), ([Message.mk "user" "q"], "c2", true)] = (["123456-c2", "123456-c1"], 2) := by
  refine ⟨?_, ?_, ?_, ?_, ?_, ?_⟩
  · intro memo messages cid uuid iok hmem
    have hcont : memo.contains (caRagKey uuid cid) = true :=
      (contains_iff_mem_str _ _).mpr hmem
    by_cases hg : caRagGuardOk messages = true
    · rw [caRag_memoized memo messages cid uuid iok hg hcont]
      exact ⟨rfl, rfl⟩
    · have hgf : caRagGuardOk messages = false := by simpa using hg
      rw [caRag_guardFail memo messages cid uuid iok hgf]
      exact ⟨rfl, rfl⟩
  · intro memo messages cid uuid
    by_cases hg : caRagGuardOk messages = true
    · by_cases hcont : memo.contains (caRagKey uuid cid) = true
      · rw [caRag_memoized memo messages cid uuid false hg hcont]
      · have hcf : memo.contains (caRagKey uuid cid) = false := by simpa using hcont
        rw [caRag_first_fail memo messages cid uuid hg hcf]
    · have hgf : caRagGuardOk messages = false := by simpa using hg
      rw [caRag_guardFail memo messages cid uuid false hgf]
  · intro memo messages cid uuid hg hnm
    have hcf : memo.contains (caRagKey uuid cid) = false := by
      by_contra hc
      exact hnm ((contains_iff_mem_str _ _).mp (by simpa using hc))
    rw [caRag_first_ok memo messages cid uuid hg hcf]
    exact ⟨rfl, rfl⟩
  · intro uuid k memo calls
    induction calls generalizing memo with
    | nil => intro hmem; exact hmem
    | cons c rest ih =>
      intro hmem
      exact ih _ (caRag_memo_mono memo c.1 c.2.1 uuid c.2.2 k hmem)
  · intro uuid c1 c2 h1 h2 hne heq
    apply hne
    rw [caRagKey, caRagKey, if_neg h1, if_neg h2] at heq
    have hd := congrArg String.data heq
    rw [String.data_append, String.data_append, String.data_append,
      String.data_append] at hd
    exact String.ext (List.append_cancel_left hd)
  · decide

/-- C7 witness: a memoized key issues no network call. -/
theorem claim7_witness :
    (buildContextAwareRAGPayload ["123456-c1"] [Message.mk "user" "q"] "c1" "123456" true).initCalled = false ∧
    (buildContextAwareRAGPayload ["123456-c1"] [Message.mk "user" "q"] "c1" "123456" true).memo = ["123456-c1"] :=
  claim7_init_memoization.1 ["123456-c1"] [Message.mk "user" "q"] "c1" "123456" true (by decide)

/-- C4: on the DONE-sentinel exit path the close operation on the output
controller is invoked twice, not once (the unconditional close in the
finally block throws on the already-closed controller), and the upstream
reader lock is consequently never released on that path; on the normal
end-of-stream path close is invoked once and the lock is released.  The
first two conjuncts evaluate the code on the failing input of the claim,
the last two show the intended behaviour on a normal exit. -/
theorem claim4_done_path_skips_release :
    processGenerateStream true [("data: [DONE]\n").toList] = RunResult.mk [] 2 false ∧
    processChatStream true [("data: [DONE]\n").toList] = RunResult.mk [] 2 false ∧
    processGenerateStream true [("data: \x7b\"value\":\"hi\"\x7d\n").toList] = RunResult.mk ["hi"] 1 true ∧
    processChatStream true [("data: \x7b\"choices\":[\x7b\"delta\":\x7b\"content\":\"X\"\x7d\x7d]\x7d\n").toList] = RunResult.mk ["X"] 1 true := by
  refine ⟨?_, ?_, ?_, ?_⟩ <;> decide


theorem validate_base_fail (cfg : EnvCfg) (url : String)
    (h : isValidBaseAddress cfg url = false) :
    validateRequestURL cfg url =
      ValidationResult.mk false (some "Base address does not match configured backend") := by
  show (if !isValidBaseAddress cfg url then _ else _) = _
  rw [if_pos (by rw [h]; rfl)]

theorem validate_isValid_base (cfg : EnvCfg) (url : String)
    (h : (validateRequestURL cfg url).isValid = true) :
    isValidBaseAddress cfg url = true := by
  by_contra hc
  have hcf : isValidBaseAddress cfg url = false := by simpa using hc
  rw [validate_base_fail cfg url hcf] at h
  simp at h

theorem validate_unfold_past_base (cfg : EnvCfg) (url : String)
    (hb : isValidBaseAddress cfg url = true)
    (hpr : isValidProtocol cfg url = true) :
    validateRequestURL cfg url =
      (if !isValidPath url then ValidationResult.mk false (some "Path is not in the allowed list")
       else if !isValidURL url then ValidationResult.mk false (some "Invalid URL format")
       else ValidationResult.mk true none) := by
  show (if !isValidBaseAddress cfg url then _ else _) = _
  rw [if_neg (by rw [hb]; decide)]
  show (if !isValidProtocol cfg url then _ else _) = _
  rw [if_neg (by rw [hpr]; decide)]

theorem validate_isValid_path (cfg : EnvCfg) (url : String)
    (h : (validateRequestURL cfg url).isValid = true) :
    isValidPath url = true := by
  have hb := validate_isValid_base cfg url h
  by_cases hpr : isValidProtocol cfg url = true
  · by_contra hc
    have hcf : isValidPath url = false := by simpa using hc
    rw [validate_unfold_past_base cfg url hb hpr, if_pos (by rw [hcf]; rfl)] at h
    simp at h
  · have hprf : isValidProtocol cfg url = false := by simpa using hpr
    have : validateRequestURL cfg url =
        ValidationResult.mk false (some (if cfg.isProd then
          "Invalid protocol. Only https: and wss: are allowed in production"
        else "Invalid protocol")) := by
      show (if !isValidBaseAddress cfg url then _ else _) = _
      rw [if_neg (by rw [hb]; decide)]
      show (if !isValidProtocol cfg url then _ else _) = _
      rw [if_pos (by rw [hprf]; rfl)]
    rw [this] at h
    simp at h

/-- C6: the URL validator accepts a URL only when its parsed host equals
the configured backend address and its dot-segment-normalized pathname
is a member of the endpoint-path allow-list or is the WebSocket path;
with the documented backend address 127.0.0.1:8000 the evil-host URL is
rejected in every mode, the dot-segment URL is rejected under every
configuration, and its parse resolves the path to /admin before the
membership check. -/
theorem claim6_url_validation :
    (∀ (cfg : EnvCfg) (url : String), (validateRequestURL cfg url).isValid = true →
      ∃ u, parseURL url = some u ∧ cfg.backendAddress = some u.host ∧
        (u.pathname ∈ httpEndpointPaths ∨ u.pathname = WEBSOCKET_PATH)) ∧
    (∀ isProd : Bool,
      (validateRequestURL (EnvCfg.mk isProd (some "127.0.0.1:8000")) ("http://evil.com:8000/chat")).isValid = false) ∧
    (∀ cfg : EnvCfg,
      (validateRequestURL cfg ("http://127.0.0.1:8000/../admin")).isValid = false) ∧
    parseURL ("http://127.0.0.1:8000/../admin") =
      some (URLRec.mk "http" "127.0.0.1:8000" "/admin") := by
  refine ⟨?_, ?_, ?_, ?_⟩
  · intro cfg url hv
    have hb := validate_isValid_base cfg url hv
    have hpath := validate_isValid_path cfg url hv
    cases hba : cfg.backendAddress with
    | none =>
      exfalso
      have hbf : isValidBaseAddress cfg url = false := by
        unfold isValidBaseAddress
        rw [hba]
      rw [hbf] at hb
      simp at hb
    | some b =>
      cases hpu : parseURL url with
      | none =>
        exfalso
        have hbf : isValidBaseAddress cfg url = false := by
          unfold isValidBaseAddress
          rw [hba]
          show (match parseURL url with
            | none => false
            | some u => u.host == b) = false
          rw [hpu]
        rw [hbf] at hb
        simp at hb
      | some u =>
        have hbeq : (u.host == b) = true := by
          have hbe : isValidBaseAddress cfg url = (u.host == b) := by
            unfold isValidBaseAddress
            rw [hba]
            show (match parseURL url with
              | none => false
              | some u => u.host == b) = (u.host == b)
            rw [hpu]
          rw [hbe] at hb
          exact hb
        refine ⟨u, rfl, ?_, ?_⟩
        · exact congrArg some (beq_iff_eq.mp hbeq).symm
        · have hpe : isValidPath url =
              (httpEndpointPaths.contains u.pathname || (u.pathname == WEBSOCKET_PATH)) := by
            unfold isValidPath
            rw [hpu]
          rw [hpe] at hpath
          rcases Bool.or_eq_true_iff.mp hpath with hc | hc
          · exact Or.inl ((contains_iff_mem_str _ _).mp hc)
          · exact Or.inr (beq_iff_eq.mp hc)
  · intro p
    cases p with
    | false => decide
    | true => decide
  · intro cfg
    obtain ⟨p, ba⟩ := cfg
    cases ba with
    | none =>
      have hbf : isValidBaseAddress (EnvCfg.mk p none) ("http://127.0.0.1:8000/../admin") = false := rfl
      rw [validate_base_fail _ _ hbf]
    | some b =>
      by_cases hb : b = "127.0.0.1:8000"
      · subst hb
        cases p with
        | false => decide
        | true => decide
      · have hpu : parseURL ("http://127.0.0.1:8000/../admin") =
            some (URLRec.mk "http" "127.0.0.1:8000" "/admin") := by rfl
        have hbf : isValidBaseAddress (EnvCfg.mk p (some b)) ("http://127.0.0.1:8000/../admin") = false := by
          unfold isValidBaseAddress
          show (match parseURL ("http://127.0.0.1:8000/../admin") with
            | none => false
            | some u => u.host == b) = false
          rw [hpu]
          show (("127.0.0.1:8000" : String) == b) = false
          exact beq_eq_false_iff_ne.mpr (fun hh => hb hh.symm)
        rw [validate_base_fail _ _ hbf]
  · rfl

/-- C6 witness: the only-if direction applied to an accepted development
URL, yielding host and allow-list membership of the resolved path. -/
theorem claim6_witness :
    ∃ u, parseURL ("http://127.0.0.1:8000/chat") = some u ∧
      (EnvCfg.mk false (some "127.0.0.1:8000")).backendAddress = some u.host ∧
      (u.pathname ∈ httpEndpointPaths ∨ u.pathname = WEBSOCKET_PATH) :=
  claim6_url_validation.1 (EnvCfg.mk false (some "127.0.0.1:8000"))
    ("http://127.0.0.1:8000/chat") (by decide)

end Spec
